import Mathlib

/-!
Verification of the haven example training script (`example.py`).

The script is glue code: a train/validate/checkpoint loop (`trainval`), an
`MLP` model wrapping framework tensor operations, and name-based dispatch
(`get_loader`, `get_model`).  The embedding below keeps the script's control
flow, data flow and persistence concrete, while the numerical capabilities of
the underlying deep-learning framework (log-softmax, autograd plus the SGD
update, random weight initialisation, the MNIST data source) are opaque
parameters collected in a `TorchEnv`.  Python exceptions are modelled with
`Except` / an error field: a Python function that returns `None` is `.ok none`,
one that raises is `.error e`.
-/

/-- Python exceptions that the script can raise. -/
inductive PyErr where
  | zeroDivisionErr
  | indexErr
  | fileNotFoundErr
  | typeErr
  | attrErr
deriving Repr, DecidableEq

/-- A `torch.nn.Linear` layer's parameters: one weight row and one bias entry
per output neuron. -/
structure NnLinear where
  weight : List (List ℚ)
  bias : List ℚ
deriving Repr, DecidableEq

/-- Dot product of two rational vectors. -/
def dotQ (xs ys : List ℚ) : ℚ :=
  ((xs.zip ys).map (fun p => p.1 * p.2)).sum

/-- Application of a linear layer to one input row: `y_j = w_j · x + b_j`. -/
def NnLinear.apply (l : NnLinear) (x : List ℚ) : List ℚ :=
  (l.weight.zip l.bias).map (fun p => dotQ p.1 x + p.2)

/-- `F.relu` applied componentwise to one row. -/
def reluRow (xs : List ℚ) : List ℚ :=
  xs.map (fun z => max z 0)

/-- The module part of `MLP.state_dict()`: the parameters of the hidden layers
and the output layer. -/
structure ModelSd where
  hidden_layers : List NnLinear
  output_layer : NnLinear
deriving Repr, DecidableEq

/-- The `torch.optim.SGD` optimizer: the learning rate it was constructed
with (part of its state dict via `param_groups`) and its internal buffers,
kept opaque. -/
structure SGD where
  lr : ℚ
  buffers : List ℚ
deriving Repr, DecidableEq

/-- The value returned by `MLP.get_state_dict`:
`{'model': self.state_dict(), 'opt': self.opt.state_dict()}`. -/
structure SavedState where
  model : ModelSd
  opt : SGD
deriving Repr, DecidableEq

/-- The `MLP` module of `example.py`: `input_size`, `hidden_layers`,
`output_layer`, the owned optimizer `opt`, and the `nn.Module`
training-mode flag (`self.train()` / `self.eval()`). -/
structure MLP where
  input_size : ℕ
  hidden_layers : List NnLinear
  output_layer : NnLinear
  opt : SGD
  training : Bool
deriving Repr, DecidableEq

/-- A batch yielded by a data loader: the image rows (each image flattened to
one rational row, as `x.view(-1, input_size)` produces) and the ground-truth
labels. -/
abbrev Batch := List (List ℚ) × List ℕ

/-- The opaque capabilities of the deep-learning framework and of the data
source, which `example.py` consumes but does not implement: row-wise
`F.log_softmax`, row-wise `argmax`, mean-reduced `F.nll_loss`, the combined
effect of `loss.backward()` followed by `opt.step()` on the parameters and
optimizer buffers, the framework's random initialisation of the two linear
layers, and the (downloaded, transformed, shuffled, batched) MNIST data
stream keyed by data directory, train flag and batch size. -/
structure TorchEnv where
  logSoftmaxRow : List ℚ → List ℚ
  argmaxRow : List ℚ → ℕ
  nllLossMean : List (List ℚ) → List ℕ → ℚ
  backwardStep : ModelSd → SGD → List (List ℚ) → List ℕ → ModelSd × SGD
  initHidden : NnLinear
  initOutput : NnLinear
  mnist : String → Bool → ℕ → List Batch

/-- `MLP.__init__` followed by `get_model`'s `MLP()` call: one hidden layer,
one output layer (framework-initialised weights), and an SGD optimizer
constructed with `lr=1e-3`.  A fresh `nn.Module` starts in training mode. -/
def mkMLP (T : TorchEnv) : MLP :=
  { input_size := 784
    hidden_layers := [T.initHidden]
    output_layer := T.initOutput
    opt := { lr := 1/1000, buffers := [] }
    training := true }

/-- `self.state_dict()` of the module: its layer parameters. -/
def MLP.state_dict (m : MLP) : ModelSd :=
  { hidden_layers := m.hidden_layers, output_layer := m.output_layer }

/-- `MLP.get_state_dict`: packs the module state dict and the optimizer
state dict. -/
def MLP.get_state_dict (m : MLP) : SavedState :=
  { model := m.state_dict, opt := m.opt }

/-- `MLP.set_state_dict`: `self.load_state_dict(sd['model'])` replaces the
layer parameters, `self.opt.load_state_dict(sd['opt'])` replaces the
optimizer state (including the learning rate recorded in it). -/
def MLP.set_state_dict (m : MLP) (sd : SavedState) : MLP :=
  { m with
      hidden_layers := sd.model.hidden_layers
      output_layer := sd.model.output_layer
      opt := sd.opt }

/-- `MLP.forward`: reshape to rows, fold the hidden layers with ReLU
activations, then the output layer. -/
def MLP.forward (m : MLP) (x : List (List ℚ)) : List (List ℚ) :=
  x.map (fun row =>
    m.output_layer.apply
      (m.hidden_layers.foldl (fun out layer => reluRow (layer.apply out)) row))

/-- `MLP.predict_on_batch`: log-softmax over the forward logits, then the
argmax along each row; the labels component of the batch is never read. -/
def MLP.predict_on_batch (T : TorchEnv) (m : MLP) (batch : Batch) : List ℕ :=
  let images := batch.1
  let probs := (m.forward images).map T.logSoftmaxRow
  probs.map T.argmaxRow

/-- The framework calls issued by `MLP.train_on_batch`, in program order. -/
inductive TrainOp where
  | zero_grad
  | forwardPass
  | log_softmax
  | nll_loss
  | backward
  | opt_step
deriving Repr, DecidableEq

/-- `MLP.train_on_batch`: zero the gradients, forward pass, log-softmax,
mean-reduced NLL loss, backward, optimizer step; returns the updated model,
the scalar loss (`loss.item()`), and the trace of framework calls issued. -/
def MLP.train_on_batch (T : TorchEnv) (m : MLP) (batch : Batch) :
    MLP × ℚ × List TrainOp :=
  let images := batch.1
  let labels := batch.2
  let probs := (m.forward images).map T.logSoftmaxRow
  let loss := T.nllLossMean probs labels
  let upd := T.backwardStep m.state_dict m.opt images labels
  ({ m with
      hidden_layers := upd.1.hidden_layers
      output_layer := upd.1.output_layer
      opt := upd.2 },
   loss,
   [TrainOp.zero_grad, TrainOp.forwardPass, TrainOp.log_softmax,
    TrainOp.nll_loss, TrainOp.backward, TrainOp.opt_step])

/-- `(pred_labels.cpu() == gt_labels).sum()`: the number of positions where
prediction and ground truth agree. -/
def countEq (xs ys : List ℕ) : ℕ :=
  ((xs.zip ys).filter (fun p => p.1 == p.2)).length

/-- The body of the `for i, batch in enumerate(train_loader)` loop of
`MLP.train_on_loader`: train on each batch, accumulate the loss sum, and at
the periodic progress-print step compute `i % (n_batches // 10)` — which
raises `ZeroDivisionError` when `n_batches // 10 == 0` — printing the running
mean loss when the remainder is zero. -/
def trainBatches (T : TorchEnv) (n : ℕ) :
    MLP → ℚ → ℕ → List Batch → List (ℕ × ℚ) →
    Except PyErr (MLP × ℚ × List (ℕ × ℚ))
  | m, lossSum, _i, [], prints => .ok (m, lossSum, prints.reverse)
  | m, lossSum, i, b :: bs, prints =>
    let r := MLP.train_on_batch T m b
    let lossSum2 := lossSum + r.2.1
    if n / 10 = 0 then .error .zeroDivisionErr
    else if i % (n / 10) = 0 then
      trainBatches T n r.1 lossSum2 (i + 1) bs ((i, lossSum2 / (i + 1)) :: prints)
    else
      trainBatches T n r.1 lossSum2 (i + 1) bs prints

/-- `MLP.train_on_loader`: switch to training mode, run the batch loop, and
divide the accumulated loss sum by `n_batches` (`ZeroDivisionError` on an
empty loader); returns the model after the pass, the mean loss
(`train_dict['train_loss']`) and the printed progress lines. -/
def MLP.train_on_loader (T : TorchEnv) (m : MLP) (train_loader : List Batch) :
    Except PyErr (MLP × ℚ × List (ℕ × ℚ)) :=
  let m1 : MLP := { m with training := true }
  let n := train_loader.length
  match trainBatches T n m1 0 0 train_loader [] with
  | .error e => .error e
  | .ok (m2, lossSum, prints) =>
    if n = 0 then .error .zeroDivisionErr
    else .ok (m2, lossSum / n, prints)

/-- The body of the `for i, batch in enumerate(val_loader)` loop of
`MLP.val_on_loader`: accumulate the count of correct predictions and the
sample count, and at the periodic progress-print step compute
`i % (n_batches // 10)` (`ZeroDivisionError` when `n_batches // 10 == 0`),
printing the running accuracy `se / n_samples` (`ZeroDivisionError` when no
sample has been seen) when the remainder is zero. -/
def valBatches (T : TorchEnv) (n : ℕ) :
    MLP → ℚ → ℕ → ℕ → List Batch → List (ℕ × ℚ) →
    Except PyErr (MLP × ℚ × ℕ × List (ℕ × ℚ))
  | m, se, ns, _i, [], prints => .ok (m, se, ns, prints.reverse)
  | m, se, ns, i, b :: bs, prints =>
    let gt := b.2
    let preds := MLP.predict_on_batch T m b
    let se2 := se + (countEq preds gt : ℚ)
    let ns2 := ns + gt.length
    if n / 10 = 0 then .error .zeroDivisionErr
    else if i % (n / 10) = 0 then
      if ns2 = 0 then .error .zeroDivisionErr
      else valBatches T n m se2 ns2 (i + 1) bs ((i, se2 / (ns2 : ℚ)) :: prints)
    else
      valBatches T n m se2 ns2 (i + 1) bs prints

/-- `MLP.val_on_loader` (decorated `@torch.no_grad()`): switch to eval mode,
run the batch loop — which never updates the parameters or the optimizer —
and divide correct count by sample count (`ZeroDivisionError` when the total
sample count is zero); returns the model after the pass, the accuracy
(`val_dict['val_acc']`) and the printed progress lines. -/
def MLP.val_on_loader (T : TorchEnv) (m : MLP) (val_loader : List Batch) :
    Except PyErr (MLP × ℚ × List (ℕ × ℚ)) :=
  let m1 : MLP := { m with training := false }
  let n := val_loader.length
  match valBatches T n m1 0 0 0 val_loader [] with
  | .error e => .error e
  | .ok (m2, se, ns, prints) =>
    if ns = 0 then .error .zeroDivisionErr
    else .ok (m2, se / (ns : ℚ), prints)

/-- `get_loader`: for `'mnist'`, build the transform, derive the train flag
from the split, and return the (downloaded, shuffled, batched) MNIST loader;
for any other dataset name the function body falls through and returns the
Python `None` (`.ok none`) — it raises nothing. -/
def get_loader (T : TorchEnv) (dataset_name datadir split : String)
    (batch_size : ℕ) : Except PyErr (Option (List Batch)) :=
  if dataset_name = "mnist" then
    let train := if split = "train" then true else false
    .ok (some (T.mnist datadir train batch_size))
  else
    .ok none

/-- `get_model`: returns `MLP()` for `'mlp'`; for any other model name the
function body falls through and returns the Python `None` (`.ok none`). -/
def get_model (T : TorchEnv) (model_name : String) :
    Except PyErr (Option MLP) :=
  if model_name = "mlp" then .ok (some (mkMLP T))
  else .ok none

/-- The experiment dictionary `exp_dict` used by `trainval`: the keys it
reads (`dataset`, `model`, `max_epoch`, `batch_size`) plus the `lr`
hyperparameter that appears in `EXP_GROUPS`. -/
structure Config where
  dataset : String
  model : String
  max_epoch : ℕ
  lr : ℚ
  batch_size : ℕ
deriving Repr, DecidableEq

/-- One entry of `score_list`: the dict
`{'train_loss': ..., 'val_acc': ..., 'epoch': e}`. -/
structure ScoreRecord where
  epoch : ℕ
  train_loss : ℚ
  val_acc : ℚ
deriving Repr, DecidableEq

/-- Modelled from the spec: the persisted contents of one experiment's
checkpoint directory `savedir`.  The spec's external persistence helpers
(`hu.save_json`, `hu.torch_save`/`hu.torch_load`, `hu.save_pkl`/`hu.load_pkl`
— repository code not present under `src/`) are modelled as faithful
load/store of the three files `model.pth`, `score_list.pkl` and
`exp_dict.json`; a field is `none` when the file does not exist, and loading
a missing file raises. -/
structure Dir where
  model_pth : Option SavedState
  score_list_pkl : Option (List ScoreRecord)
  exp_dict_json : Option Config
deriving Repr, DecidableEq

/-- Modelled from the spec: `hc.delete_experiment(savedir, backup_flag=True)`
(repository code not present under `src/`) removes the experiment directory's
contents, keeping them only in a backup location outside the directory. -/
def delete_experiment (_dir : Dir) : Dir :=
  { model_pth := none, score_list_pkl := none, exp_dict_json := none }

/-- The outcome of one `trainval` invocation: the final contents of the
checkpoint directory, the epoch indices whose loop body ran to completion
(score appended and checkpoint saved), and the Python exception that
terminated the run, if any. -/
structure RunState where
  dir : Dir
  epochsRun : List ℕ
  err : Option PyErr
deriving Repr, DecidableEq

/-- The body of one epoch of `trainval`'s loop, up to the metrics: train one
pass on the train loader, validate one pass on the val loader, and return the
model after the epoch together with `train_dict['train_loss']` and
`val_dict['val_acc']`.  A `None` loader (`get_loader` fell through) raises
`TypeError` inside `len()`. -/
def epochStep (T : TorchEnv) (tl vl : Option (List Batch)) (m : MLP) :
    Except PyErr (MLP × ℚ × ℚ) :=
  match tl with
  | none => .error .typeErr
  | some tlb =>
    match MLP.train_on_loader T m tlb with
    | .error pe => .error pe
    | .ok (m1, train_loss, _p1) =>
      match vl with
      | none => .error .typeErr
      | some vlb =>
        match MLP.val_on_loader T m1 vlb with
        | .error pe => .error pe
        | .ok (m2, val_acc, _p2) => .ok (m2, train_loss, val_acc)

/-- The `for e in range(s_epoch, max_epoch)` loop of `trainval`, with
`fuel = max_epoch - s_epoch` iterations remaining.  Each iteration runs
`epochStep`, appends the score record for epoch `e`, and persists the model
state (`hu.torch_save`) and the score list (`hu.save_pkl`).  A `None` model
(`get_model` fell through) raises `AttributeError` at the first method
call. -/
def epochLoop (T : TorchEnv) (tl vl : Option (List Batch)) :
    ℕ → Option MLP → List ScoreRecord → ℕ → Dir → RunState
  | 0, _mo, _sl, _e, dir => ⟨dir, [], none⟩
  | fuel + 1, mo, sl, e, dir =>
    match mo with
    | none => ⟨dir, [], some .attrErr⟩
    | some m =>
      match epochStep T tl vl m with
      | .error pe => ⟨dir, [], some pe⟩
      | .ok (m2, train_loss, val_acc) =>
        let sl2 := sl ++ [⟨e, train_loss, val_acc⟩]
        let dir2 : Dir :=
          { dir with
              model_pth := some m2.get_state_dict
              score_list_pkl := some sl2 }
        let r := epochLoop T tl vl fuel (some m2) sl2 (e + 1) dir2
        ⟨r.dir, e :: r.epochsRun, r.err⟩

/-- `trainval(exp_dict, savedir_base, reset)`: optionally reset the
directory, save `exp_dict.json`, build the two loaders and the model, then
either resume — `model.set_state_dict(hu.torch_load(model_path))`
(`AttributeError` on a `None` model, `FileNotFoundError` on a missing
`model.pth`), reload `score_list` and continue at
`score_list[-1]['epoch'] + 1` (`IndexError` on an empty list) — or restart
at epoch 0 with an empty score list, and run the epoch loop. -/
def trainval (T : TorchEnv) (savedir_base : String) (exp : Config)
    (dir0 : Dir) (reset : Bool) : RunState :=
  let dir1 := if reset then delete_experiment dir0 else dir0
  let dir2 : Dir := { dir1 with exp_dict_json := some exp }
  match get_loader T exp.dataset savedir_base "train" exp.batch_size with
  | .error e => ⟨dir2, [], some e⟩
  | .ok train_loader =>
    match get_loader T exp.dataset savedir_base "val" exp.batch_size with
    | .error e => ⟨dir2, [], some e⟩
    | .ok val_loader =>
      match get_model T exp.model with
      | .error e => ⟨dir2, [], some e⟩
      | .ok model =>
        match dir2.score_list_pkl with
        | some score_list =>
          match model with
          | none => ⟨dir2, [], some .attrErr⟩
          | some m =>
            match dir2.model_pth with
            | none => ⟨dir2, [], some .fileNotFoundErr⟩
            | some st =>
              match score_list.getLast? with
              | none => ⟨dir2, [], some .indexErr⟩
              | some last =>
                epochLoop T train_loader val_loader
                  (exp.max_epoch - (last.epoch + 1))
                  (some (m.set_state_dict st)) score_list
                  (last.epoch + 1) dir2
        | none =>
          epochLoop T train_loader val_loader exp.max_epoch model [] 0 dir2

/-- The scalar losses returned by `MLP.train_on_batch` along one pass over a
loader, the model evolving batch to batch. -/
def batchLosses (T : TorchEnv) : MLP → List Batch → List ℚ
  | _, [] => []
  | m, b :: bs =>
    (MLP.train_on_batch T m b).2.1 ::
      batchLosses T (MLP.train_on_batch T m b).1 bs

/-- The model after training on each batch of a loader in turn. -/
def trainFold (T : TorchEnv) (m : MLP) (bs : List Batch) : MLP :=
  bs.foldl (fun m b => (MLP.train_on_batch T m b).1) m

/-- Total number of correct predictions of model `m` over all batches of a
loader. -/
def valCorrect (T : TorchEnv) (m : MLP) (l : List Batch) : ℕ :=
  (l.map (fun b => countEq (MLP.predict_on_batch T m b) b.2)).sum

/-- Total number of samples over all batches of a loader. -/
def valSamples (l : List Batch) : ℕ :=
  (l.map (fun b => b.2.length)).sum

theorem trainBatches_cons (T : TorchEnv) (n : ℕ) (m : MLP) (lossSum : ℚ)
    (i : ℕ) (b : Batch) (bs : List Batch) (acc : List (ℕ × ℚ)) :
    trainBatches T n m lossSum i (b :: bs) acc =
      if n / 10 = 0 then .error .zeroDivisionErr
      else if i % (n / 10) = 0 then
        trainBatches T n (MLP.train_on_batch T m b).1
          (lossSum + (MLP.train_on_batch T m b).2.1) (i + 1) bs
          ((i, (lossSum + (MLP.train_on_batch T m b).2.1) / (i + 1)) :: acc)
      else
        trainBatches T n (MLP.train_on_batch T m b).1
          (lossSum + (MLP.train_on_batch T m b).2.1) (i + 1) bs acc := rfl

theorem valBatches_cons (T : TorchEnv) (n : ℕ) (m : MLP) (se : ℚ) (ns i : ℕ)
    (b : Batch) (bs : List Batch) (acc : List (ℕ × ℚ)) :
    valBatches T n m se ns i (b :: bs) acc =
      if n / 10 = 0 then .error .zeroDivisionErr
      else if i % (n / 10) = 0 then
        if ns + b.2.length = 0 then .error .zeroDivisionErr
        else
          valBatches T n m (se + (countEq (MLP.predict_on_batch T m b) b.2 : ℚ))
            (ns + b.2.length) (i + 1) bs
            ((i, (se + (countEq (MLP.predict_on_batch T m b) b.2 : ℚ)) /
                ((ns + b.2.length : ℕ) : ℚ)) :: acc)
      else
        valBatches T n m (se + (countEq (MLP.predict_on_batch T m b) b.2 : ℚ))
          (ns + b.2.length) (i + 1) bs acc := rfl

theorem trainBatches_ok (T : TorchEnv) (n : ℕ) (hn : n / 10 ≠ 0) :
    ∀ (bs : List Batch) (m : MLP) (lossSum : ℚ) (i : ℕ) (acc : List (ℕ × ℚ)),
    ∃ prints, trainBatches T n m lossSum i bs acc =
        Except.ok (trainFold T m bs, lossSum + (batchLosses T m bs).sum, prints) ∧
      prints.map Prod.fst =
        (acc.map Prod.fst).reverse ++
          (List.range' i bs.length).filter (fun j => j % (n / 10) = 0) := by
  intro bs
  induction bs with
  | nil =>
    intro m lossSum i acc
    refine ⟨acc.reverse, ?_, ?_⟩
    · simp [trainBatches, trainFold, batchLosses]
    · simp [List.range']
  | cons b bs ih =>
    intro m lossSum i acc
    rw [trainBatches_cons, if_neg hn]
    by_cases hi : i % (n / 10) = 0
    · rw [if_pos hi]
      obtain ⟨prints, h1, h2⟩ :=
        ih (MLP.train_on_batch T m b).1 (lossSum + (MLP.train_on_batch T m b).2.1)
          (i + 1) ((i, (lossSum + (MLP.train_on_batch T m b).2.1) / (i + 1)) :: acc)
      refine ⟨prints, ?_, ?_⟩
      · rw [h1]
        simp [trainFold, batchLosses, add_assoc]
      · rw [h2]
        simp [List.range'_succ, List.filter_cons, hi]
    · rw [if_neg hi]
      obtain ⟨prints, h1, h2⟩ :=
        ih (MLP.train_on_batch T m b).1 (lossSum + (MLP.train_on_batch T m b).2.1)
          (i + 1) acc
      refine ⟨prints, ?_, ?_⟩
      · rw [h1]
        simp [trainFold, batchLosses, add_assoc]
      · rw [h2]
        simp [List.range'_succ, List.filter_cons, hi]

theorem valBatches_ok (T : TorchEnv) (n : ℕ) (hn : n / 10 ≠ 0) :
    ∀ (bs : List Batch), (∀ b ∈ bs, b.2 ≠ []) →
    ∀ (m : MLP) (se : ℚ) (ns : ℕ) (i : ℕ) (acc : List (ℕ × ℚ)),
    ∃ prints, valBatches T n m se ns i bs acc =
        Except.ok (m, se + (valCorrect T m bs : ℚ), ns + valSamples bs, prints) ∧
      prints.map Prod.fst =
        (acc.map Prod.fst).reverse ++
          (List.range' i bs.length).filter (fun j => j % (n / 10) = 0) := by
  intro bs
  induction bs with
  | nil =>
    intro _ m se ns i acc
    refine ⟨acc.reverse, ?_, ?_⟩
    · simp [valBatches, valCorrect, valSamples]
    · simp [List.range']
  | cons b bs ih =>
    intro hne m se ns i acc
    have hb : b.2 ≠ [] := hne b (List.mem_cons_self b bs)
    have hbs : ∀ x ∈ bs, x.2 ≠ [] := fun x hx => hne x (List.mem_cons_of_mem b hx)
    have hns : ns + b.2.length ≠ 0 := by
      have : b.2.length ≠ 0 := fun h => hb (List.eq_nil_of_length_eq_zero h)
      omega
    rw [valBatches_cons, if_neg hn]
    by_cases hi : i % (n / 10) = 0
    · rw [if_pos hi, if_neg hns]
      obtain ⟨prints, h1, h2⟩ :=
        ih hbs m (se + (countEq (MLP.predict_on_batch T m b) b.2 : ℚ))
          (ns + b.2.length) (i + 1)
          ((i, (se + (countEq (MLP.predict_on_batch T m b) b.2 : ℚ)) /
              ((ns + b.2.length : ℕ) : ℚ)) :: acc)
      refine ⟨prints, ?_, ?_⟩
      · rw [h1]
        simp only [valCorrect, valSamples, List.map_cons, List.sum_cons]
        push_cast
        ring_nf
      · rw [h2]
        simp [List.range'_succ, List.filter_cons, hi]
    · rw [if_neg hi]
      obtain ⟨prints, h1, h2⟩ :=
        ih hbs m (se + (countEq (MLP.predict_on_batch T m b) b.2 : ℚ))
          (ns + b.2.length) (i + 1) acc
      refine ⟨prints, ?_, ?_⟩
      · rw [h1]
        simp only [valCorrect, valSamples, List.map_cons, List.sum_cons]
        push_cast
        ring_nf
      · rw [h2]
        simp [List.range'_succ, List.filter_cons, hi]

theorem length_div_ten_ne_zero {n : ℕ} (h10 : 10 ≤ n) : n / 10 ≠ 0 := by
  have h := (Nat.one_le_div_iff (by norm_num : 0 < 10)).mpr h10
  omega

theorem valSamples_ne_zero (l : List Batch) (hl : l ≠ [])
    (hne : ∀ b ∈ l, b.2 ≠ []) : valSamples l ≠ 0 := by
  cases l with
  | nil => exact absurd rfl hl
  | cons b bs =>
    have hb : b.2 ≠ [] := hne b (List.mem_cons_self b bs)
    have : b.2.length ≠ 0 := fun h => hb (List.eq_nil_of_length_eq_zero h)
    simp only [valSamples, List.map_cons, List.sum_cons]
    omega

theorem train_on_loader_ok (T : TorchEnv) (m : MLP) (l : List Batch)
    (h10 : 10 ≤ l.length) :
    ∃ prints, MLP.train_on_loader T m l =
        Except.ok (trainFold T { m with training := true } l,
          (batchLosses T { m with training := true } l).sum / (l.length : ℚ),
          prints) ∧
      prints.map Prod.fst =
        (List.range l.length).filter (fun j => j % (l.length / 10) = 0) := by
  have hn : l.length / 10 ≠ 0 := length_div_ten_ne_zero h10
  have hz : l.length ≠ 0 := by omega
  obtain ⟨prints, h1, h2⟩ :=
    trainBatches_ok T l.length hn l { m with training := true } 0 0 []
  refine ⟨prints, ?_, ?_⟩
  · simp only [MLP.train_on_loader]
    rw [h1]
    simp [hz]
  · rw [h2]
    simp [List.range_eq_range']

theorem val_on_loader_ok (T : TorchEnv) (m : MLP) (l : List Batch)
    (h10 : 10 ≤ l.length) (hne : ∀ b ∈ l, b.2 ≠ []) :
    ∃ prints, MLP.val_on_loader T m l =
        Except.ok ({ m with training := false },
          (valCorrect T { m with training := false } l : ℚ) /
            (valSamples l : ℚ), prints) ∧
      prints.map Prod.fst =
        (List.range l.length).filter (fun j => j % (l.length / 10) = 0) := by
  have hn : l.length / 10 ≠ 0 := length_div_ten_ne_zero h10
  have hlne : l ≠ [] := by
    intro h
    rw [h] at h10
    simp at h10
  have hs : valSamples l ≠ 0 := valSamples_ne_zero l hlne hne
  obtain ⟨prints, h1, h2⟩ :=
    valBatches_ok T l.length hn l hne { m with training := false } 0 0 0 []
  refine ⟨prints, ?_, ?_⟩
  · simp only [MLP.val_on_loader]
    rw [h1]
    simp [hs]
  · rw [h2]
    simp [List.range_eq_range']

theorem train_on_loader_small (T : TorchEnv) (m : MLP) (l : List Batch)
    (h1 : l ≠ []) (h9 : l.length < 10) :
    MLP.train_on_loader T m l = .error .zeroDivisionErr := by
  obtain ⟨b, bs, rfl⟩ := List.exists_cons_of_ne_nil h1
  have hn : (b :: bs).length / 10 = 0 := Nat.div_eq_of_lt h9
  simp only [MLP.train_on_loader]
  rw [trainBatches_cons, if_pos hn]

theorem val_on_loader_small (T : TorchEnv) (m : MLP) (l : List Batch)
    (h1 : l ≠ []) (h9 : l.length < 10) :
    MLP.val_on_loader T m l = .error .zeroDivisionErr := by
  obtain ⟨b, bs, rfl⟩ := List.exists_cons_of_ne_nil h1
  have hn : (b :: bs).length / 10 = 0 := Nat.div_eq_of_lt h9
  simp only [MLP.val_on_loader]
  rw [valBatches_cons, if_pos hn]

theorem epochLoop_zero (T : TorchEnv) (tl vl : Option (List Batch))
    (mo : Option MLP) (sl : List ScoreRecord) (e : ℕ) (dir : Dir) :
    epochLoop T tl vl 0 mo sl e dir = ⟨dir, [], none⟩ := rfl

theorem epochLoop_head (T : TorchEnv) (tl vl : Option (List Batch))
    (fuel : ℕ) (mo : Option MLP) (sl : List ScoreRecord) (e : ℕ) (dir : Dir)
    (x : ℕ)
    (h : (epochLoop T tl vl fuel mo sl e dir).epochsRun.head? = some x) :
    x = e := by
  cases fuel with
  | zero => simp [epochLoop] at h
  | succ fuel =>
    cases mo with
    | none => simp [epochLoop] at h
    | some m =>
      cases hs : epochStep T tl vl m with
      | error pe => simp [epochLoop, hs] at h
      | ok res =>
        obtain ⟨m2, train_loss, val_acc⟩ := res
        simp [epochLoop, hs] at h
        omega

theorem epochLoop_ok_epochs (T : TorchEnv) (tl vl : Option (List Batch)) :
    ∀ (fuel : ℕ) (mo : Option MLP) (sl : List ScoreRecord) (e : ℕ) (dir : Dir),
    (epochLoop T tl vl fuel mo sl e dir).err = none →
    (epochLoop T tl vl fuel mo sl e dir).epochsRun = List.range' e fuel := by
  intro fuel
  induction fuel with
  | zero =>
    intro mo sl e dir _
    simp [epochLoop, List.range']
  | succ fuel ih =>
    intro mo sl e dir h
    cases mo with
    | none => simp [epochLoop] at h
    | some m =>
      cases hs : epochStep T tl vl m with
      | error pe => simp [epochLoop, hs] at h
      | ok res =>
        obtain ⟨m2, train_loss, val_acc⟩ := res
        simp only [epochLoop, hs] at h ⊢
        rw [List.range'_succ]
        simp only [List.cons.injEq, true_and]
        exact ih _ _ _ _ h

theorem epochLoop_append (T : TorchEnv) (tl vl : Option (List Batch)) :
    ∀ (fuel : ℕ) (mo : Option MLP) (sl : List ScoreRecord) (e : ℕ) (dir : Dir),
    dir.score_list_pkl = some sl →
    ∃ t, (epochLoop T tl vl fuel mo sl e dir).dir.score_list_pkl =
      some (sl ++ t) := by
  intro fuel
  induction fuel with
  | zero =>
    intro mo sl e dir hd
    exact ⟨[], by simp [epochLoop, hd]⟩
  | succ fuel ih =>
    intro mo sl e dir hd
    cases mo with
    | none => exact ⟨[], by simp [epochLoop, hd]⟩
    | some m =>
      cases hs : epochStep T tl vl m with
      | error pe => exact ⟨[], by simp [epochLoop, hs, hd]⟩
      | ok res =>
        obtain ⟨m2, train_loss, val_acc⟩ := res
        obtain ⟨t, ht⟩ := ih (some m2) (sl ++ [⟨e, train_loss, val_acc⟩])
          (e + 1)
          { dir with
              model_pth := some m2.get_state_dict
              score_list_pkl := some (sl ++ [⟨e, train_loss, val_acc⟩]) }
          rfl
        refine ⟨⟨e, train_loss, val_acc⟩ :: t, ?_⟩
        simp only [epochLoop, hs]
        rw [ht]
        simp

theorem epochLoop_ok_score (T : TorchEnv) (tl vl : Option (List Batch)) :
    ∀ (fuel : ℕ) (mo : Option MLP) (sl : List ScoreRecord) (e : ℕ) (dir : Dir),
    (epochLoop T tl vl fuel mo sl e dir).err = none →
    (dir.score_list_pkl = some sl ∨
      (dir.score_list_pkl = none ∧ sl = [])) →
    ∀ h, (epochLoop T tl vl fuel mo sl e dir).dir.score_list_pkl = some h →
    h.map ScoreRecord.epoch =
      sl.map ScoreRecord.epoch ++ List.range' e fuel := by
  intro fuel
  induction fuel with
  | zero =>
    intro mo sl e dir _ hinv h hscore
    simp only [epochLoop_zero] at hscore
    rcases hinv with hinv | ⟨hinv, rfl⟩
    · rw [hinv] at hscore
      cases hscore
      simp [List.range']
    · rw [hinv] at hscore
      cases hscore
  | succ fuel ih =>
    intro mo sl e dir herr hinv h hscore
    cases mo with
    | none => simp [epochLoop] at herr
    | some m =>
      cases hs : epochStep T tl vl m with
      | error pe => simp [epochLoop, hs] at herr
      | ok res =>
        obtain ⟨m2, train_loss, val_acc⟩ := res
        simp only [epochLoop, hs] at herr hscore
        have := ih (some m2) (sl ++ [⟨e, train_loss, val_acc⟩]) (e + 1)
          { dir with
              model_pth := some m2.get_state_dict
              score_list_pkl := some (sl ++ [⟨e, train_loss, val_acc⟩]) }
          herr (Or.inl rfl) h hscore
        rw [this]
        simp [List.range'_succ]

theorem epochLoop_exp_indep (T : TorchEnv) (tl vl : Option (List Batch)) :
    ∀ (fuel : ℕ) (mo : Option MLP) (sl : List ScoreRecord) (e : ℕ) (dir : Dir)
    (j : Option Config),
    (epochLoop T tl vl fuel mo sl e
        { dir with exp_dict_json := j }).epochsRun =
      (epochLoop T tl vl fuel mo sl e dir).epochsRun ∧
    (epochLoop T tl vl fuel mo sl e
        { dir with exp_dict_json := j }).err =
      (epochLoop T tl vl fuel mo sl e dir).err ∧
    (epochLoop T tl vl fuel mo sl e
        { dir with exp_dict_json := j }).dir.model_pth =
      (epochLoop T tl vl fuel mo sl e dir).dir.model_pth ∧
    (epochLoop T tl vl fuel mo sl e
        { dir with exp_dict_json := j }).dir.score_list_pkl =
      (epochLoop T tl vl fuel mo sl e dir).dir.score_list_pkl := by
  intro fuel
  induction fuel with
  | zero =>
    intro mo sl e dir j
    simp [epochLoop_zero]
  | succ fuel ih =>
    intro mo sl e dir j
    cases mo with
    | none => simp [epochLoop]
    | some m =>
      cases hs : epochStep T tl vl m with
      | error pe => simp [epochLoop, hs]
      | ok res =>
        obtain ⟨m2, train_loss, val_acc⟩ := res
        simp only [epochLoop, hs]
        have h := ih (some m2) (sl ++ [⟨e, train_loss, val_acc⟩]) (e + 1)
          { dir with
              model_pth := some m2.get_state_dict
              score_list_pkl := some (sl ++ [⟨e, train_loss, val_acc⟩]) } j
        dsimp only at h ⊢
        exact ⟨by rw [h.1], h.2.1, h.2.2.1, h.2.2.2⟩

theorem get_loader_isOk (T : TorchEnv) (n d s : String) (b : ℕ) :
    ∃ o, get_loader T n d s b = .ok o := by
  unfold get_loader
  split
  · exact ⟨_, rfl⟩
  · exact ⟨_, rfl⟩

theorem get_model_isOk (T : TorchEnv) (n : String) :
    ∃ o, get_model T n = .ok o := by
  unfold get_model
  split
  · exact ⟨_, rfl⟩
  · exact ⟨_, rfl⟩

/-- A concrete instantiation of the opaque framework capabilities, used to
evaluate the development on closed inputs. -/
def T0 : TorchEnv :=
  { logSoftmaxRow := id
    argmaxRow := fun _ => 0
    nllLossMean := fun _ _ => 0
    backwardStep := fun sd o _ _ => (sd, o)
    initHidden := { weight := [], bias := [] }
    initOutput := { weight := [], bias := [] }
    mnist := fun _ _ _ => List.replicate 10 ([[0]], [0]) }

/-- A configuration used for concrete evaluation. -/
def expW : Config :=
  { dataset := "mnist", model := "mlp", max_epoch := 1, lr := 1/1000,
    batch_size := 32 }

/-- An empty checkpoint directory. -/
def dirE : Dir :=
  { model_pth := none, score_list_pkl := none, exp_dict_json := none }

/-- A saved model state used for concrete evaluation. -/
def sdW : SavedState :=
  { model := { hidden_layers := [{ weight := [], bias := [] }],
               output_layer := { weight := [], bias := [] } },
    opt := { lr := 1/1000, buffers := [] } }

/-- The score history of a completed one-epoch run. -/
def slW : List ScoreRecord := [⟨0, 0, 1⟩]

/-- A checkpoint directory in which a one-epoch run has completed. -/
def dirW : Dir :=
  { model_pth := some sdW, score_list_pkl := some slW,
    exp_dict_json := some expW }

/-- C1: for every configuration and checkpoint directory in which the loop
has already run to completion (the saved score history's last epoch index
equals `max_epoch - 1`), invoking `trainval` again with the same
configuration and directory (reset false) performs zero additional epochs
and leaves the persisted score history unchanged. -/
theorem claim_C1_resume_idempotent (T : TorchEnv) (sb : String) (exp : Config)
    (dir : Dir) (sl : List ScoreRecord) (last : ScoreRecord)
    (hs : dir.score_list_pkl = some sl)
    (hl : sl.getLast? = some last)
    (he : last.epoch = exp.max_epoch - 1) :
    (trainval T sb exp dir false).epochsRun = [] ∧
    (trainval T sb exp dir false).dir.score_list_pkl = some sl := by
  obtain ⟨tlo, htl⟩ := get_loader_isOk T exp.dataset sb "train" exp.batch_size
  obtain ⟨vlo, hvl⟩ := get_loader_isOk T exp.dataset sb "val" exp.batch_size
  obtain ⟨mo, hmo⟩ := get_model_isOk T exp.model
  cases mo with
  | none => simp [trainval, htl, hvl, hmo, hs]
  | some m =>
    cases hmp : dir.model_pth with
    | none => simp [trainval, htl, hvl, hmo, hs, hmp]
    | some st =>
      have hfuel : exp.max_epoch - (last.epoch + 1) = 0 := by omega
      simp [trainval, htl, hvl, hmo, hs, hmp, hl, hfuel, epochLoop_zero]

/-- C1 witness: a completed one-epoch directory re-run with the same
configuration performs zero epochs and keeps the score history. -/
theorem claim_C1_witness :
    (trainval T0 "sb" expW dirW false).epochsRun = [] ∧
    (trainval T0 "sb" expW dirW false).dir.score_list_pkl = some slW :=
  claim_C1_resume_idempotent T0 "sb" expW dirW slW ⟨0, 0, 1⟩ rfl rfl rfl

/-- C2: whenever `trainval` resumes (the score-history file exists and the
saved score history is non-empty, with the model-state file present and the
configured model available), it enters the epoch loop at exactly one past
the epoch index of the last saved score record, with the model obtained by
loading the saved parameters and optimizer state into the freshly
constructed model — `set_state_dict` restores both exactly as saved — and
the first epoch it runs (if any) is that index. -/
theorem claim_C2_resume_continues (T : TorchEnv) (sb : String) (exp : Config)
    (dir : Dir) (sl : List ScoreRecord) (last : ScoreRecord) (st : SavedState)
    (tlo vlo : Option (List Batch))
    (hs : dir.score_list_pkl = some sl)
    (hl : sl.getLast? = some last)
    (hmp : dir.model_pth = some st)
    (hm : exp.model = "mlp")
    (htl : get_loader T exp.dataset sb "train" exp.batch_size = .ok tlo)
    (hvl : get_loader T exp.dataset sb "val" exp.batch_size = .ok vlo) :
    trainval T sb exp dir false =
      epochLoop T tlo vlo (exp.max_epoch - (last.epoch + 1))
        (some (MLP.set_state_dict (mkMLP T) st)) sl (last.epoch + 1)
        { dir with exp_dict_json := some exp } ∧
    (MLP.set_state_dict (mkMLP T) st).hidden_layers =
      st.model.hidden_layers ∧
    (MLP.set_state_dict (mkMLP T) st).output_layer = st.model.output_layer ∧
    (MLP.set_state_dict (mkMLP T) st).opt = st.opt ∧
    (∀ x, (trainval T sb exp dir false).epochsRun.head? = some x →
      x = last.epoch + 1) := by
  have hmo : get_model T exp.model = .ok (some (mkMLP T)) := by
    simp [get_model, hm]
  have h1 : trainval T sb exp dir false =
      epochLoop T tlo vlo (exp.max_epoch - (last.epoch + 1))
        (some (MLP.set_state_dict (mkMLP T) st)) sl (last.epoch + 1)
        { dir with exp_dict_json := some exp } := by
    simp [trainval, htl, hvl, hmo, hs, hmp, hl]
  refine ⟨h1, rfl, rfl, rfl, ?_⟩
  intro x hx
  rw [h1] at hx
  exact epochLoop_head _ _ _ _ _ _ _ _ _ hx

/-- C2 witness: resuming the completed one-epoch directory enters the loop
at epoch 1 with the saved state restored. -/
theorem claim_C2_witness :
    trainval T0 "sb" expW dirW false =
      epochLoop T0 (some (T0.mnist "sb" true 32))
        (some (T0.mnist "sb" false 32)) (expW.max_epoch - (0 + 1))
        (some (MLP.set_state_dict (mkMLP T0) sdW)) slW (0 + 1)
        { dirW with exp_dict_json := some expW } ∧
    (MLP.set_state_dict (mkMLP T0) sdW).hidden_layers =
      sdW.model.hidden_layers ∧
    (MLP.set_state_dict (mkMLP T0) sdW).output_layer =
      sdW.model.output_layer ∧
    (MLP.set_state_dict (mkMLP T0) sdW).opt = sdW.opt ∧
    (∀ x, (trainval T0 "sb" expW dirW false).epochsRun.head? = some x →
      x = 0 + 1) :=
  claim_C2_resume_continues T0 "sb" expW dirW slW ⟨0, 0, 1⟩ sdW
    (some (T0.mnist "sb" true 32)) (some (T0.mnist "sb" false 32))
    rfl rfl rfl rfl rfl rfl

/-- C3: for every run of `trainval` that completes starting from an empty
checkpoint directory, the epoch indices in the persisted score history are
exactly `0, 1, ..., max_epoch - 1` (a strictly increasing contiguous
sequence starting at 0); and every non-reset invocation only appends records
to the existing persisted history — it never removes or reorders earlier
records. -/
theorem claim_C3_score_history (T : TorchEnv) (sb : String) (exp : Config)
    (dir : Dir) :
    (dir.score_list_pkl = none →
      (trainval T sb exp dir false).err = none →
      ∀ h, (trainval T sb exp dir false).dir.score_list_pkl = some h →
        h.map ScoreRecord.epoch = List.range exp.max_epoch) ∧
    (∀ sl0, dir.score_list_pkl = some sl0 →
      ∀ h, (trainval T sb exp dir false).dir.score_list_pkl = some h →
        ∃ t, h = sl0 ++ t) := by
  obtain ⟨tlo, htl⟩ := get_loader_isOk T exp.dataset sb "train" exp.batch_size
  obtain ⟨vlo, hvl⟩ := get_loader_isOk T exp.dataset sb "val" exp.batch_size
  obtain ⟨mo, hmo⟩ := get_model_isOk T exp.model
  constructor
  · intro hnone herr h hscore
    have h1 : trainval T sb exp dir false =
        epochLoop T tlo vlo exp.max_epoch mo [] 0
          { dir with exp_dict_json := some exp } := by
      simp [trainval, htl, hvl, hmo, hnone]
    rw [h1] at herr hscore
    have := epochLoop_ok_score T tlo vlo exp.max_epoch mo [] 0
      { dir with exp_dict_json := some exp } herr
      (Or.inr ⟨by simp [hnone], rfl⟩) h hscore
    simpa [List.range_eq_range'] using this
  · intro sl0 hs0 h hscore
    cases mo with
    | none =>
      have h1 : trainval T sb exp dir false =
          ⟨{ dir with exp_dict_json := some exp }, [], some .attrErr⟩ := by
        simp [trainval, htl, hvl, hmo, hs0]
      rw [h1] at hscore
      simp [hs0] at hscore
      exact ⟨[], by simp [← hscore]⟩
    | some m =>
      cases hmp : dir.model_pth with
      | none =>
        have h1 : trainval T sb exp dir false =
            ⟨{ dir with exp_dict_json := some exp }, [],
              some .fileNotFoundErr⟩ := by
          simp [trainval, htl, hvl, hmo, hs0, hmp]
        rw [h1] at hscore
        simp [hs0] at hscore
        exact ⟨[], by simp [← hscore]⟩
      | some st =>
        cases hl : sl0.getLast? with
        | none =>
          have h1 : trainval T sb exp dir false =
              ⟨{ dir with exp_dict_json := some exp }, [],
                some .indexErr⟩ := by
            simp [trainval, htl, hvl, hmo, hs0, hmp, hl]
          rw [h1] at hscore
          simp [hs0] at hscore
          exact ⟨[], by simp [← hscore]⟩
        | some last =>
          have h1 : trainval T sb exp dir false =
              epochLoop T tlo vlo (exp.max_epoch - (last.epoch + 1))
                (some (m.set_state_dict st)) sl0 (last.epoch + 1)
                { dir with exp_dict_json := some exp } := by
            simp [trainval, htl, hvl, hmo, hs0, hmp, hl]
          rw [h1] at hscore
          obtain ⟨t, ht⟩ := epochLoop_append T tlo vlo
            (exp.max_epoch - (last.epoch + 1)) (some (m.set_state_dict st))
            sl0 (last.epoch + 1) { dir with exp_dict_json := some exp }
            (by simp [hs0])
          rw [ht] at hscore
          exact ⟨t, (Option.some.inj hscore).symm⟩

/-- C3 witness: the completed one-epoch run from the empty directory yields
a history whose epochs are `range 1`; re-running on the completed directory
only appends. -/
theorem claim_C3_witness :
    (∃ hist, (trainval T0 "sb" expW dirE false).dir.score_list_pkl =
        some hist ∧
      hist.map ScoreRecord.epoch = List.range expW.max_epoch) ∧
    ∃ t, slW = slW ++ t := by
  constructor
  · exact ⟨_, rfl,
      (claim_C3_score_history T0 "sb" expW dirE).1 rfl (by decide) _ rfl⟩
  · exact (claim_C3_score_history T0 "sb" expW dirW).2 slW rfl slW rfl

/-- C4: for every data loader with at least one batch but fewer than 10
batches, `MLP.train_on_loader` and `MLP.val_on_loader` raise
`ZeroDivisionError` at the periodic progress-print step (`i % (n_batches //
10)`) instead of completing the pass; for loaders with at least 10 batches
(whose batches, as produced by a data loader, are non-empty for the
validation pass), a progress line is printed at exactly the multiples of
`n_batches // 10` — roughly every tenth of the pass. -/
theorem claim_C4_progress_prints (T : TorchEnv) (m : MLP) (l : List Batch) :
    (1 ≤ l.length → l.length < 10 →
      MLP.train_on_loader T m l = .error .zeroDivisionErr ∧
      MLP.val_on_loader T m l = .error .zeroDivisionErr) ∧
    (10 ≤ l.length →
      (∃ r, MLP.train_on_loader T m l = .ok r ∧
        r.2.2.map Prod.fst =
          (List.range l.length).filter (fun j => j % (l.length / 10) = 0)) ∧
      ((∀ b ∈ l, b.2 ≠ []) →
        ∃ r, MLP.val_on_loader T m l = .ok r ∧
          r.2.2.map Prod.fst =
            (List.range l.length).filter
              (fun j => j % (l.length / 10) = 0))) := by
  constructor
  · intro h1 h9
    have hne : l ≠ [] := by
      intro h
      rw [h] at h1
      simp at h1
    exact ⟨train_on_loader_small T m l hne h9, val_on_loader_small T m l hne h9⟩
  · intro h10
    constructor
    · obtain ⟨prints, h1, h2⟩ := train_on_loader_ok T m l h10
      exact ⟨_, h1, h2⟩
    · intro hne
      obtain ⟨prints, h1, h2⟩ := val_on_loader_ok T m l h10 hne
      exact ⟨_, h1, h2⟩

/-- C4 witness: a 5-batch loader raises the division error in both passes;
a 10-batch loader prints at every multiple of 1. -/
theorem claim_C4_witness :
    (MLP.train_on_loader T0 (mkMLP T0) (List.replicate 5 ([[0]], [0])) =
        .error .zeroDivisionErr ∧
      MLP.val_on_loader T0 (mkMLP T0) (List.replicate 5 ([[0]], [0])) =
        .error .zeroDivisionErr) ∧
    (∃ r, MLP.train_on_loader T0 (mkMLP T0)
        (List.replicate 10 ([[0]], [0])) = .ok r ∧
      r.2.2.map Prod.fst =
        (List.range (List.replicate 10 (([[0]], [0]) : Batch)).length).filter
          (fun j => j %
            ((List.replicate 10 (([[0]], [0]) : Batch)).length / 10) = 0)) ∧
    ∃ r, MLP.val_on_loader T0 (mkMLP T0)
        (List.replicate 10 ([[0]], [0])) = .ok r ∧
      r.2.2.map Prod.fst =
        (List.range (List.replicate 10 (([[0]], [0]) : Batch)).length).filter
          (fun j => j %
            ((List.replicate 10 (([[0]], [0]) : Batch)).length / 10) = 0) := by
  refine ⟨(claim_C4_progress_prints T0 (mkMLP T0)
      (List.replicate 5 ([[0]], [0]))).1 (by decide) (by decide), ?_, ?_⟩
  · exact ((claim_C4_progress_prints T0 (mkMLP T0)
      (List.replicate 10 ([[0]], [0]))).2 (by decide)).1
  · exact ((claim_C4_progress_prints T0 (mkMLP T0)
      (List.replicate 10 ([[0]], [0]))).2 (by decide)).2 (by decide)

/-- C6: for every validation loader with at least 10 (non-empty) batches,
`MLP.val_on_loader` completes one pass over all batches without touching the
parameters or the optimizer (the `@torch.no_grad()` pass only flips the
module to eval mode) and returns `val_acc` equal to the total number of
predictions matching the ground-truth labels divided by the total number of
samples across all batches. -/
theorem claim_C6_val_accuracy (T : TorchEnv) (m : MLP) (l : List Batch)
    (h10 : 10 ≤ l.length) (hne : ∀ b ∈ l, b.2 ≠ []) :
    ∃ prints, MLP.val_on_loader T m l =
      .ok ({ m with training := false },
        (valCorrect T m l : ℚ) / (valSamples l : ℚ), prints) := by
  obtain ⟨prints, h1, _h2⟩ := val_on_loader_ok T m l h10 hne
  exact ⟨prints, h1⟩

/-- C6 witness: on ten one-sample batches the returned accuracy is the
correct count over the sample count, with the model otherwise unchanged. -/
theorem claim_C6_witness :
    ∃ prints, MLP.val_on_loader T0 (mkMLP T0)
        (List.replicate 10 ([[0]], [0])) =
      .ok ({ mkMLP T0 with training := false },
        (valCorrect T0 (mkMLP T0) (List.replicate 10 ([[0]], [0])) : ℚ) /
          (valSamples (List.replicate 10 ([[0]], [0])) : ℚ), prints) :=
  claim_C6_val_accuracy T0 (mkMLP T0) (List.replicate 10 ([[0]], [0]))
    (by decide) (by decide)

/-- C7: `MLP.train_on_batch` performs, in order, gradient zeroing, the
forward pass, log-softmax, mean-reduced NLL loss against the labels,
back-propagation and one optimizer update, returning the scalar loss; and
for every training loader with at least 10 batches, `MLP.train_on_loader`
returns `train_loss` equal to the mean of these per-batch losses over all
batches. -/
theorem claim_C7_train_step (T : TorchEnv) (m : MLP) (b : Batch)
    (l : List Batch) (h10 : 10 ≤ l.length) :
    ((MLP.train_on_batch T m b).2.2 =
        [TrainOp.zero_grad, TrainOp.forwardPass, TrainOp.log_softmax,
         TrainOp.nll_loss, TrainOp.backward, TrainOp.opt_step] ∧
      (MLP.train_on_batch T m b).2.1 =
        T.nllLossMean ((m.forward b.1).map T.logSoftmaxRow) b.2 ∧
      (MLP.train_on_batch T m b).1.state_dict =
        (T.backwardStep m.state_dict m.opt b.1 b.2).1 ∧
      (MLP.train_on_batch T m b).1.opt =
        (T.backwardStep m.state_dict m.opt b.1 b.2).2) ∧
    ∃ m2 prints, MLP.train_on_loader T m l =
      .ok (m2,
        (batchLosses T { m with training := true } l).sum / (l.length : ℚ),
        prints) := by
  refine ⟨⟨rfl, rfl, rfl, rfl⟩, ?_⟩
  obtain ⟨prints, h1, _h2⟩ := train_on_loader_ok T m l h10
  exact ⟨_, prints, h1⟩

/-- C7 witness: the batch-step facts and the mean-loss result instantiated
on a concrete batch and a ten-batch loader. -/
theorem claim_C7_witness :
    ((MLP.train_on_batch T0 (mkMLP T0) ([[0]], [0])).2.2 =
        [TrainOp.zero_grad, TrainOp.forwardPass, TrainOp.log_softmax,
         TrainOp.nll_loss, TrainOp.backward, TrainOp.opt_step] ∧
      (MLP.train_on_batch T0 (mkMLP T0) ([[0]], [0])).2.1 =
        T0.nllLossMean (((mkMLP T0).forward [[0]]).map T0.logSoftmaxRow)
          [0] ∧
      (MLP.train_on_batch T0 (mkMLP T0) ([[0]], [0])).1.state_dict =
        (T0.backwardStep (mkMLP T0).state_dict (mkMLP T0).opt [[0]] [0]).1 ∧
      (MLP.train_on_batch T0 (mkMLP T0) ([[0]], [0])).1.opt =
        (T0.backwardStep (mkMLP T0).state_dict (mkMLP T0).opt [[0]] [0]).2) ∧
    ∃ m2 prints, MLP.train_on_loader T0 (mkMLP T0)
        (List.replicate 10 ([[0]], [0])) =
      .ok (m2,
        (batchLosses T0 { mkMLP T0 with training := true }
            (List.replicate 10 ([[0]], [0]))).sum /
          ((List.replicate 10 (([[0]], [0]) : Batch)).length : ℚ),
        prints) :=
  claim_C7_train_step T0 (mkMLP T0) ([[0]], [0])
    (List.replicate 10 ([[0]], [0])) (by decide)

/-- C8: saving the state of any model with `get_state_dict` and loading it
into a freshly constructed model with `set_state_dict` yields a model whose
`predict_on_batch` output on any fixed batch is identical to the original
model's. -/
theorem claim_C8_state_roundtrip (T : TorchEnv) (m : MLP) (b : Batch) :
    MLP.predict_on_batch T
        (MLP.set_state_dict (mkMLP T) (MLP.get_state_dict m)) b =
      MLP.predict_on_batch T m b := rfl

/-- C10: `MLP.predict_on_batch` returns the same predicted labels for any
two batches sharing the images component: the labels in the batch are never
read. -/
theorem claim_C10_predict_ignores_labels (T : TorchEnv) (m : MLP)
    (images : List (List ℚ)) (l1 l2 : List ℕ) :
    MLP.predict_on_batch T m (images, l1) =
      MLP.predict_on_batch T m (images, l2) := rfl

/-- C5 counterexample: for the unsupported dataset name `"cifar10"`,
`get_loader` does not fail with an error at all — its body falls through and
it returns the Python `None` normally — refuting the claim that every
non-`'mnist'` dataset name makes `get_loader` fail with an
unsupported-dataset configuration error. -/
theorem claim_C5_counterexample :
    ¬ ∃ e : PyErr, get_loader T0 "cifar10" "data" "train" 32 =
      .error e := by
  rintro ⟨e, h⟩
  simp [get_loader] at h

/-- C5 (amended): for every dataset name other than `'mnist'`, `get_loader`
returns no loader (the Python `None`, raising nothing), and for every model
name other than `'mlp'`, `get_model` likewise returns `None`; `trainval` on
such a dataset then fails with a `TypeError` at the first use of the missing
loader, before any training step is executed. -/
theorem claim_C5_amended (T : TorchEnv) (sb datadir split : String)
    (bsz : ℕ) (name mname : String) (exp : Config) (dir : Dir)
    (hn : name ≠ "mnist") (hm : mname ≠ "mlp")
    (hd : exp.dataset ≠ "mnist") (hmodel : exp.model = "mlp")
    (hscore : dir.score_list_pkl = none) (hmax : 1 ≤ exp.max_epoch) :
    get_loader T name datadir split bsz = .ok none ∧
    get_model T mname = .ok none ∧
    (trainval T sb exp dir false).err = some .typeErr ∧
    (trainval T sb exp dir false).epochsRun = [] := by
  refine ⟨by simp [get_loader, hn], by simp [get_model, hm], ?_⟩
  cases hE : exp.max_epoch with
  | zero => omega
  | succ k =>
    constructor
    · simp [trainval, get_loader, get_model, hd, hmodel, hscore, hE,
        epochLoop, epochStep]
    · simp [trainval, get_loader, get_model, hd, hmodel, hscore, hE,
        epochLoop, epochStep]

/-- C5 witness for the amended claim: concrete unsupported names and a
concrete `trainval` run that stops with a `TypeError` before any epoch. -/
theorem claim_C5_witness :
    get_loader T0 "cifar10" "data" "train" 32 = .ok none ∧
    get_model T0 "cnn" = .ok none ∧
    (trainval T0 "sb"
        { dataset := "svhn", model := "mlp", max_epoch := 1, lr := 1/1000,
          batch_size := 8 } dirE false).err = some .typeErr ∧
    (trainval T0 "sb"
        { dataset := "svhn", model := "mlp", max_epoch := 1, lr := 1/1000,
          batch_size := 8 } dirE false).epochsRun = [] :=
  claim_C5_amended T0 "sb" "data" "train" 32 "cifar10" "cnn"
    { dataset := "svhn", model := "mlp", max_epoch := 1, lr := 1/1000,
      batch_size := 8 } dirE
    (by decide) (by decide) (by decide) rfl rfl (by decide)

theorem trainval_lr_indep (T : TorchEnv) (sb d mdl : String) (me bsz : ℕ)
    (lr1 lr2 : ℚ) (dir : Dir) (r : Bool) :
    (trainval T sb ⟨d, mdl, me, lr1, bsz⟩ dir r).epochsRun =
      (trainval T sb ⟨d, mdl, me, lr2, bsz⟩ dir r).epochsRun ∧
    (trainval T sb ⟨d, mdl, me, lr1, bsz⟩ dir r).err =
      (trainval T sb ⟨d, mdl, me, lr2, bsz⟩ dir r).err ∧
    (trainval T sb ⟨d, mdl, me, lr1, bsz⟩ dir r).dir.model_pth =
      (trainval T sb ⟨d, mdl, me, lr2, bsz⟩ dir r).dir.model_pth ∧
    (trainval T sb ⟨d, mdl, me, lr1, bsz⟩ dir r).dir.score_list_pkl =
      (trainval T sb ⟨d, mdl, me, lr2, bsz⟩ dir r).dir.score_list_pkl := by
  obtain ⟨tlo, htl⟩ := get_loader_isOk T d sb "train" bsz
  obtain ⟨vlo, hvl⟩ := get_loader_isOk T d sb "val" bsz
  obtain ⟨mo, hmo⟩ := get_model_isOk T mdl
  cases hsc : (if r then delete_experiment dir else dir).score_list_pkl with
  | none =>
    have h1 := epochLoop_exp_indep T tlo vlo me mo [] 0
      (if r then delete_experiment dir else dir)
      (some ⟨d, mdl, me, lr1, bsz⟩)
    have h2 := epochLoop_exp_indep T tlo vlo me mo [] 0
      (if r then delete_experiment dir else dir)
      (some ⟨d, mdl, me, lr2, bsz⟩)
    rw [hsc] at h1 h2
    simp only [trainval, htl, hvl, hmo, hsc]
    exact ⟨h1.1.trans h2.1.symm, (h1.2.1).trans h2.2.1.symm,
      (h1.2.2.1).trans h2.2.2.1.symm, (h1.2.2.2).trans h2.2.2.2.symm⟩
  | some sl =>
    cases mo with
    | none => simp [trainval, htl, hvl, hmo, hsc]
    | some m =>
      cases hmp : (if r then delete_experiment dir else dir).model_pth with
      | none => simp [trainval, htl, hvl, hmo, hsc, hmp]
      | some st =>
        cases hl : sl.getLast? with
        | none => simp [trainval, htl, hvl, hmo, hsc, hmp, hl]
        | some last =>
          have h1 := epochLoop_exp_indep T tlo vlo (me - (last.epoch + 1))
            (some (m.set_state_dict st)) sl (last.epoch + 1)
            (if r then delete_experiment dir else dir)
            (some ⟨d, mdl, me, lr1, bsz⟩)
          have h2 := epochLoop_exp_indep T tlo vlo (me - (last.epoch + 1))
            (some (m.set_state_dict st)) sl (last.epoch + 1)
            (if r then delete_experiment dir else dir)
            (some ⟨d, mdl, me, lr2, bsz⟩)
          rw [hsc, hmp] at h1 h2
          simp only [trainval, htl, hvl, hmo, hsc, hmp, hl]
          exact ⟨h1.1.trans h2.1.symm, (h1.2.1).trans h2.2.1.symm,
            (h1.2.2.1).trans h2.2.2.1.symm, (h1.2.2.2).trans h2.2.2.2.symm⟩

/-- C9: for every two configurations that differ only in the `lr`
hyperparameter, the model constructed by `get_model` is identical, its
optimizer is always constructed with learning rate `1e-3`, and the whole
`trainval` run — epochs executed, error outcome, persisted model state and
persisted score history — is identical: the configuration's learning rate
is never read. -/
theorem claim_C9_lr_never_read (T : TorchEnv) (sb : String) (c1 c2 : Config)
    (dir : Dir) (r : Bool)
    (hd : c1.dataset = c2.dataset) (hm : c1.model = c2.model)
    (he : c1.max_epoch = c2.max_epoch) (hb : c1.batch_size = c2.batch_size) :
    get_model T c1.model = get_model T c2.model ∧
    (∀ mm, get_model T c1.model = .ok (some mm) → mm.opt.lr = 1/1000) ∧
    (trainval T sb c1 dir r).epochsRun =
      (trainval T sb c2 dir r).epochsRun ∧
    (trainval T sb c1 dir r).err = (trainval T sb c2 dir r).err ∧
    (trainval T sb c1 dir r).dir.model_pth =
      (trainval T sb c2 dir r).dir.model_pth ∧
    (trainval T sb c1 dir r).dir.score_list_pkl =
      (trainval T sb c2 dir r).dir.score_list_pkl := by
  obtain ⟨d1, n1, e1, l1, b1⟩ := c1
  obtain ⟨d2, n2, e2, l2, b2⟩ := c2
  dsimp only at hd hm he hb
  subst hd hm he hb
  have h := trainval_lr_indep T sb d1 n1 e1 b1 l1 l2 dir r
  refine ⟨rfl, ?_, h.1, h.2.1, h.2.2.1, h.2.2.2⟩
  intro mm hmm
  unfold get_model at hmm
  split at hmm
  · cases hmm
    rfl
  · simp at hmm

/-- C9 witness: two configurations differing only in `lr` produce identical
models, optimizer learning rate `1e-3`, and identical runs. -/
theorem claim_C9_witness :
    get_model T0 (Config.mk "mnist" "mlp" 1 (1/1000) 32).model =
      get_model T0 (Config.mk "mnist" "mlp" 1 (1/10000) 32).model ∧
    (∀ mm, get_model T0 (Config.mk "mnist" "mlp" 1 (1/1000) 32).model =
      .ok (some mm) → mm.opt.lr = 1/1000) ∧
    (trainval T0 "sb" (Config.mk "mnist" "mlp" 1 (1/1000) 32)
        dirE false).epochsRun =
      (trainval T0 "sb" (Config.mk "mnist" "mlp" 1 (1/10000) 32)
        dirE false).epochsRun ∧
    (trainval T0 "sb" (Config.mk "mnist" "mlp" 1 (1/1000) 32)
        dirE false).err =
      (trainval T0 "sb" (Config.mk "mnist" "mlp" 1 (1/10000) 32)
        dirE false).err ∧
    (trainval T0 "sb" (Config.mk "mnist" "mlp" 1 (1/1000) 32)
        dirE false).dir.model_pth =
      (trainval T0 "sb" (Config.mk "mnist" "mlp" 1 (1/10000) 32)
        dirE false).dir.model_pth ∧
    (trainval T0 "sb" (Config.mk "mnist" "mlp" 1 (1/1000) 32)
        dirE false).dir.score_list_pkl =
      (trainval T0 "sb" (Config.mk "mnist" "mlp" 1 (1/10000) 32)
        dirE false).dir.score_list_pkl :=
  claim_C9_lr_never_read T0 "sb" (Config.mk "mnist" "mlp" 1 (1/1000) 32)
    (Config.mk "mnist" "mlp" 1 (1/10000) 32) dirE false rfl rfl rfl rfl
